import Mathlib

/-!
Verification of the lead-management CRUD service (`src/app.py`).

The development shallowly embeds the validation logic and the five HTTP
handlers of `app.py`.  Python dictionaries (JSON bodies and stored rows)
become association lists over a `Value` type covering the JSON scalars;
Python truthiness, the `in` operator and `==`/`!=` are embedded explicitly.
The remote table store (an external collaborator reached through the
`supabase` client) is modelled as a record of operations over an abstract
state, and `tableDB` gives the concrete row-list semantics described by the
spec.  A Python exception is an `Except.error` carrying the exception text;
`try/except` blocks become matches on that constructor.
-/

/-- A JSON scalar value, as carried by a request body or a stored row.
Nested arrays/objects inside field values are not modelled: no claim
exercises them. -/
inductive Value where
  | str (s : String)
  | num (n : Int)
  | bool (b : Bool)
  | null
deriving DecidableEq, Repr

/-- Python truthiness of a value (`bool(v)`): empty string, zero, `False`
and `None` are falsy. -/
def truthy : Value → Bool
  | .str s => !(s == "")
  | .num n => !(n == 0)
  | .bool b => b
  | .null => false

/-- Python `==` on scalar values: structural, except that Python booleans
compare equal to the integers 0 and 1. -/
def valueBeq : Value → Value → Bool
  | .str a, .str b => a == b
  | .num a, .num b => a == b
  | .bool a, .bool b => a == b
  | .bool a, .num b => (if a then (1 : Int) else 0) == b
  | .num a, .bool b => a == (if b then (1 : Int) else 0)
  | .null, .null => true
  | _, _ => false

/-- A Python dict (JSON object): an association list keyed by strings.
Lookups take the first binding of a key. -/
abbrev Data := List (String × Value)

/-- `d[k]` as an option: `some v` when key `k` is bound to `v`. -/
def getVal (d : Data) (k : String) : Option Value :=
  (d.find? (fun p => p.1 == k)).map (·.2)

/-- Python `k in d`. -/
def hasKey (d : Data) (k : String) : Bool :=
  (getVal d k).isSome

/-- `field not in data or not data[field]` — the required-field test of
`validate_lead_data` (app.py line 45). -/
def requiredMissing (d : Data) (f : String) : Bool :=
  match getVal d f with
  | none => true
  | some v => !truthy v

/-- A field is "string-shaped": absent, falsy, or bound to a string.  The
phone and email branches of the validator raise a `TypeError` outside this
domain (Python `re.match` and the email library reject non-strings). -/
def strFieldOk (d : Data) (f : String) : Bool :=
  match getVal d f with
  | none => true
  | some (.str _) => true
  | some v => !truthy v

/-! ## Phone validator (`validate_phone_number`, app.py lines 36-38)

`re.match(r'^(\+91[\s\-]?|0)?[6-9]\d{9}$', phone)`.  The matcher is spelled
out over the character list of the string.  `re.match` anchors at the
start; the final `$` matches at the end of the string or just before a
single trailing newline (Python semantics), embedded by `dollarAnchor`.
The classes `\d` and `\s` are restricted to their ASCII members (Python's
`re` additionally accepts other Unicode digits and whitespace; no claim
exercises those code points). -/

/-- The regex class `\d` (ASCII members). -/
def pyDigit (c : Char) : Bool := c.isDigit

/-- The regex class `\s` (ASCII members: space, tab, newline, carriage
return, vertical tab, form feed). -/
def isPySpace (c : Char) : Bool :=
  c == ' ' || c == '\t' || c == '\n' || c == '\r' || c == '\u000b' || c == '\u000c'

/-- The class `[6-9]`. -/
def firstMobileDigit (c : Char) : Bool :=
  c == '6' || c == '7' || c == '8' || c == '9'

/-- Consume `n` characters matching `\d`, returning the remainder. -/
def digitsTake : Nat → List Char → Option (List Char)
  | 0, cs => some cs
  | _ + 1, [] => none
  | n + 1, c :: cs => if pyDigit c then digitsTake n cs else none

/-- The `$` anchor of Python `re`: end of input, or just before one
trailing newline. -/
def dollarAnchor (cs : List Char) : Bool :=
  cs.isEmpty || cs == ['\n']

/-- The suffix `[6-9]\d{9}$` of the pattern. -/
def matchCore (cs : List Char) : Bool :=
  match cs with
  | [] => false
  | c :: rest =>
    firstMobileDigit c &&
      (match digitsTake 9 rest with
       | some left => dollarAnchor left
       | none => false)

/-- `[\s\-]?` followed by the core: the optional separator after `+91`. -/
def sepOpt (cs : List Char) : Bool :=
  matchCore cs ||
    (match cs with
     | c :: rest => (isPySpace c || c == '-') && matchCore rest
     | [] => false)

/-- The alternative `\+91[\s\-]?` followed by the core. -/
def plus91Branch (cs : List Char) : Bool :=
  match cs with
  | a :: b :: c :: rest => a == '+' && b == '9' && c == '1' && sepOpt rest
  | _ => false

/-- The alternative `0` followed by the core. -/
def zeroBranch (cs : List Char) : Bool :=
  match cs with
  | c :: rest => c == '0' && matchCore rest
  | [] => false

/-- `validate_phone_number` (app.py lines 36-38).  A regex match exists
iff one of the three alternatives of the optional group leads to a full
match, so the matcher is the disjunction of the branches. -/
def validate_phone_number (s : String) : Bool :=
  plus91Branch s.data || zeroBranch s.data || matchCore s.data

/-! Spec-side phone pattern (§4.1 / claim C2): the same pattern read with a
strict end anchor — "then exactly 10 digits ... with nothing else before
or after" — phrased by lengths rather than by consuming a remainder. -/

/-- Exactly ten characters, all digits, the first in `[6-9]` (spec §4.1). -/
def coreTen (cs : List Char) : Bool :=
  cs.length == 10 &&
    (match cs with
     | c :: _ => firstMobileDigit c
     | [] => false) &&
    cs.all pyDigit

/-- Spec-side optional separator then the strict ten-digit core. -/
def specSep (cs : List Char) : Bool :=
  coreTen cs ||
    (match cs with
     | c :: rest => (isPySpace c || c == '-') && coreTen rest
     | [] => false)

/-- Spec-side `+91` alternative: the literal prefix then the optional
separator and the strict core. -/
def plusSpec (cs : List Char) : Bool :=
  match cs with
  | a :: b :: c :: rest => a == '+' && b == '9' && c == '1' && specSep rest
  | _ => false

/-- Spec-side leading-zero alternative. -/
def zeroSpec (cs : List Char) : Bool :=
  match cs with
  | c :: rest => c == '0' && coreTen rest
  | [] => false

/-- The spec's reading of the phone pattern with a strict end anchor:
optional `+91` plus optional separator, or a leading `0`, then exactly ten
digits starting in 6-9, and nothing else before or after. -/
def specPhone (cs : List Char) : Bool :=
  plusSpec cs || zeroSpec cs || coreTen cs

/-! ## The remote table store

The persistence engine is an external collaborator (spec §1, §6): only its
interface is in the repository.  Modelled from the spec: a remote table
store exposing `select(filters, limit) / insert(row) / update(id, patch) /
delete(id)` operations returning row sets.  Each operation acts on an
abstract store state and either returns rows or fails with an exception
text (a transport/storage error); the state after the call is returned
alongside. -/

/-- Result of a Python expression: a value or a raised exception text. -/
abbrev PyResult (α : Type) := Except String α

structure DB (σ : Type) where
  selectEq : String → Value → Option Nat → σ → PyResult (List Data) × σ
  selectAll : σ → PyResult (List Data) × σ
  insert : Data → σ → PyResult (List Data) × σ
  updateEq : Data → Int → σ → PyResult (List Data) × σ
  deleteEq : Int → σ → PyResult (List Data) × σ

/-- The error message of the phone-format branch (app.py line 51). -/
def phoneFmtMsg : String :=
  "Invalid phone number format. Use +91 XXXXXXXXXX or 0XXXXXXXXXX"

/-- The exception text raised by `re.match` on a non-string value. -/
def reTypeErr : String := "TypeError: expected string or bytes-like object"

/-- The exception raised by the email library on a non-string value (it is
not an `EmailNotValidError`, so `validate_lead_data` does not catch it;
the text is a label for that exception). -/
def emailTypeErr : String := "TypeError: email value is not a string"

/-- The required-field loop of `validate_lead_data` (app.py lines 43-46). -/
def requiredErrors (d : Data) : List String :=
  ["name", "phone", "email", "party"].foldl
    (fun es f => if requiredMissing d f then es ++ [f ++ " is required"] else es) []

/-- `validate_lead_data` (app.py lines 40-76).  `emailOk` embeds the
external email-syntax checker (`validate_email`: `true` = no exception,
`false` = `EmailNotValidError`); `db` the store client.  Returns the
accumulated error list, or the text of an uncaught exception, together
with the store state after the lookups. -/
def validate_lead_data {σ : Type} (emailOk : String → Bool) (db : DB σ)
    (d : Data) (check_existing : Bool) (s : σ) : PyResult (List String) × σ :=
  let errs := requiredErrors d
  let ps : PyResult (List String) × σ :=
    match getVal d "phone" with
    | some pv =>
      if truthy pv then
        match pv with
        | .str p =>
          if !validate_phone_number p then (.ok (errs ++ [phoneFmtMsg]), s)
          else if check_existing then
            match db.selectEq "phone" (.str p) (some 1) s with
            | (.ok rows, s') =>
              if !rows.isEmpty then (.ok (errs ++ ["Phone number already exists"]), s')
              else (.ok errs, s')
            | (.error _, s') => (.ok (errs ++ ["Error validating phone number"]), s')
          else (.ok errs, s)
        | _ => (.error reTypeErr, s)
      else (.ok errs, s)
    | none => (.ok errs, s)
  match ps with
  | (.error e, s1) => (.error e, s1)
  | (.ok errs1, s1) =>
    match getVal d "email" with
    | some ev =>
      if truthy ev then
        match ev with
        | .str em =>
          if emailOk em then
            if check_existing then
              match db.selectEq "email" (.str em) (some 1) s1 with
              | (.ok rows, s2) =>
                if !rows.isEmpty then (.ok (errs1 ++ ["Email already exists"]), s2)
                else (.ok errs1, s2)
              | (.error _, s2) => (.ok (errs1 ++ ["Error validating email"]), s2)
            else (.ok errs1, s1)
          else (.ok (errs1 ++ ["Invalid email format"]), s1)
        | _ => (.error emailTypeErr, s1)
      else (.ok errs1, s1)
    | none => (.ok errs1, s1)

/-! Segment views of the validator, for stating its decomposition: the
phone block and the email block of `validate_lead_data` producing only the
messages they append. -/

/-- The phone block of the validator (app.py lines 49-59), producing only
its own messages. -/
def phoneStep {σ : Type} (db : DB σ) (d : Data) (check_existing : Bool)
    (s : σ) : PyResult (List String) × σ :=
  match getVal d "phone" with
  | some pv =>
    if truthy pv then
      match pv with
      | .str p =>
        if !validate_phone_number p then (.ok [phoneFmtMsg], s)
        else if check_existing then
          match db.selectEq "phone" (.str p) (some 1) s with
          | (.ok rows, s') =>
            if !rows.isEmpty then (.ok ["Phone number already exists"], s')
            else (.ok [], s')
          | (.error _, s') => (.ok ["Error validating phone number"], s')
        else (.ok [], s)
      | _ => (.error reTypeErr, s)
    else (.ok [], s)
  | none => (.ok [], s)

/-- The email block of the validator (app.py lines 62-74), producing only
its own messages. -/
def emailStep {σ : Type} (emailOk : String → Bool) (db : DB σ) (d : Data)
    (check_existing : Bool) (s : σ) : PyResult (List String) × σ :=
  match getVal d "email" with
  | some ev =>
    if truthy ev then
      match ev with
      | .str em =>
        if emailOk em then
          if check_existing then
            match db.selectEq "email" (.str em) (some 1) s with
            | (.ok rows, s2) =>
              if !rows.isEmpty then (.ok ["Email already exists"], s2)
              else (.ok [], s2)
            | (.error _, s2) => (.ok ["Error validating email"], s2)
          else (.ok [], s)
        else (.ok ["Invalid email format"], s)
      | _ => (.error emailTypeErr, s)
    else (.ok [], s)
  | none => (.ok [], s)

/-! ## HTTP handlers (app.py lines 80-158)

A response is a status code and a JSON body; the body constructors name
the single JSON key used by the source (`leads`, `lead`, `message`,
`errors`).  A handler returns `(.ok resp, s)` for a served response and
`(.error e, s)` when an exception escapes the handler unhandled. -/

inductive RespBody where
  | leadsB (rows : List Data)
  | leadB (row : Data)
  | msgB (m : String)
  | errsB (es : List String)
deriving DecidableEq, Repr

abbrev Resp := Nat × RespBody

/-- A `try/except Exception` block around a handler body: an exception
becomes a 500 response whose message embeds the exception text. -/
def pyTry {σ : Type} (pfx : String) : PyResult Resp × σ → PyResult Resp × σ
  | (.error e, s) => (.ok (500, .msgB (pfx ++ e)), s)
  | (.ok r, s) => (.ok r, s)

/-- `get_all_leads` (app.py lines 80-87). -/
def get_all_leads {σ : Type} (db : DB σ) (s : σ) : PyResult Resp × σ :=
  pyTry "Error fetching leads: "
    (match db.selectAll s with
     | (.ok rows, s') => (.ok (200, .leadsB rows), s')
     | (.error e, s') => (.error e, s'))

/-- `get_lead` (app.py lines 89-98). -/
def get_lead {σ : Type} (lead_id : Int) (db : DB σ) (s : σ) : PyResult Resp × σ :=
  pyTry "Error fetching lead: "
    (match db.selectEq "id" (.num lead_id) none s with
     | (.ok (r :: _), s') => (.ok (200, .leadB r), s')
     | (.ok [], s') => (.ok (404, .msgB "Lead not found"), s')
     | (.error e, s') => (.error e, s'))

/-- The default-filling step of `create_lead` (app.py lines 110-114):
`lastconnected` is set to the current UTC ISO-8601 time `now` when the key
is absent, then `setdefault` fills `status` and `tag`. -/
def fillLead (now : String) (d : Data) : Data :=
  let d1 := if !hasKey d "lastconnected" then d ++ [("lastconnected", .str now)] else d
  let d2 := if !hasKey d1 "status" then d1 ++ [("status", .str "Connected")] else d1
  if !hasKey d2 "tag" then d2 ++ [("tag", .str "Lead")] else d2

/-- `create_lead` (app.py lines 100-121).  `now` is the current UTC time
in ISO-8601 form.  The body check and the validation call run before the
`try` block, so an exception raised there escapes the handler. -/
def create_lead {σ : Type} (now : String) (emailOk : String → Bool)
    (db : DB σ) (d : Data) (s : σ) : PyResult Resp × σ :=
  if d.isEmpty then (.ok (400, .msgB "No data provided"), s)
  else
    match validate_lead_data emailOk db d true s with
    | (.error e, s1) => (.error e, s1)
    | (.ok errs, s1) =>
      if !errs.isEmpty then (.ok (400, .errsB errs), s1)
      else
        pyTry "Error creating lead: "
          (match db.insert (fillLead now d) s1 with
           | (.ok (r :: _), s2) => (.ok (201, .leadB r), s2)
           | (.ok [], s2) => (.error "list index out of range", s2)
           | (.error e, s2) => (.error e, s2))

/-- The `check_existing` computation of `update_lead` (app.py lines
134-137): Python `or`/`and` short-circuiting over the two `!=` tests;
`existing['email']` / `existing['phone']` raise `KeyError` when the stored
row lacks the key. -/
def check_existing_flag (d row : Data) : PyResult Bool :=
  match getVal d "email" with
  | some dv =>
    match getVal row "email" with
    | none => .error "KeyError: 'email'"
    | some sv =>
      if !valueBeq dv sv then .ok true
      else
        match getVal d "phone" with
        | some dp =>
          match getVal row "phone" with
          | none => .error "KeyError: 'phone'"
          | some sp => .ok (!valueBeq dp sp)
        | none => .ok false
  | none =>
    match getVal d "phone" with
    | some dp =>
      match getVal row "phone" with
      | none => .error "KeyError: 'phone'"
      | some sp => .ok (!valueBeq dp sp)
    | none => .ok false

/-- Spec-side reading (§4.6 / claim C5): the body supplies a value for the
field and it differs from the stored value. -/
def fieldDiffers (d row : Data) (f : String) : Bool :=
  match getVal d f, getVal row f with
  | some dv, some rv => !valueBeq dv rv
  | _, _ => false

/-- `update_lead` (app.py lines 123-147).  The body check runs before the
`try`; everything else — existence lookup, `check_existing` computation,
validation, and the row update — runs inside it. -/
def update_lead {σ : Type} (lead_id : Int) (d : Data) (emailOk : String → Bool)
    (db : DB σ) (s : σ) : PyResult Resp × σ :=
  if d.isEmpty then (.ok (400, .msgB "No data provided"), s)
  else
    pyTry "Error updating lead: "
      (match db.selectEq "id" (.num lead_id) none s with
       | (.error e, s1) => (.error e, s1)
       | (.ok [], s1) => (.ok (404, .msgB "Lead not found"), s1)
       | (.ok (row :: _), s1) =>
         match check_existing_flag d row with
         | .error e => (.error e, s1)
         | .ok ce =>
           match validate_lead_data emailOk db d ce s1 with
           | (.error e, s2) => (.error e, s2)
           | (.ok errs, s2) =>
             if !errs.isEmpty then (.ok (400, .errsB errs), s2)
             else
               match db.updateEq d lead_id s2 with
               | (.error e, s3) => (.error e, s3)
               | (.ok [], s3) => (.error "list index out of range", s3)
               | (.ok (r :: _), s3) => (.ok (200, .leadB r), s3))

/-- `delete_lead` (app.py lines 149-158). -/
def delete_lead {σ : Type} (lead_id : Int) (db : DB σ) (s : σ) : PyResult Resp × σ :=
  pyTry "Error deleting lead: "
    (match db.deleteEq lead_id s with
     | (.error e, s') => (.error e, s')
     | (.ok rows, s') =>
       if rows.isEmpty then (.ok (404, .msgB "Lead not found"), s')
       else (.ok (200, .msgB ("Lead " ++ toString lead_id ++ " deleted successfully")), s'))

/-! ## Concrete store instances

`tableDB` realises the collaborator contract over a plain list of rows
(spec §4.5, §6): `select` filters by field equality (read-only), `insert`
appends the row (assigning the next `id` when absent), `update` merges the
patch into the matching rows, `delete` removes them and returns them.
`failDB` is a store whose every call fails with a fixed transport error,
and `insFail` makes only `insert` fail. -/

/-- Rows whose field `f` equals `v`, truncated to `lim` when given. -/
def rowsSelect (rows : List Data) (f : String) (v : Value) (lim : Option Nat) : List Data :=
  let m := rows.filter (fun r =>
    match getVal r f with
    | some w => valueBeq w v
    | none => false)
  match lim with
  | some n => m.take n
  | none => m

/-- A row whose `id` field equals the integer `i`. -/
def idMatches (r : Data) (i : Int) : Bool :=
  match getVal r "id" with
  | some v => valueBeq v (.num i)
  | none => false

/-- Replace the binding of `k` (first occurrence) or append it. -/
def setKey (r : Data) (k : String) (v : Value) : Data :=
  if hasKey r k then r.map (fun p => if p.1 == k then (k, v) else p)
  else r ++ [(k, v)]

/-- Merge a patch into a row: every binding of the patch replaces or adds
the corresponding field (partial update, spec §4.5). -/
def mergeRow (r patch : Data) : Data :=
  patch.foldl (fun acc p => setKey acc p.1 p.2) r

/-- The list-backed table store. -/
def tableDB : DB (List Data) where
  selectEq f v lim s := (.ok (rowsSelect s f v lim), s)
  selectAll s := (.ok s, s)
  insert d s :=
    let r := if hasKey d "id" then d else d ++ [("id", .num (Int.ofNat s.length + 1))]
    (.ok [r], s ++ [r])
  updateEq d i s :=
    let s' := s.map (fun r => if idMatches r i then mergeRow r d else r)
    (.ok (s'.filter (fun r => idMatches r i)), s')
  deleteEq i s :=
    (.ok (s.filter (fun r => idMatches r i)), s.filter (fun r => !idMatches r i))

/-- A store whose every operation fails with the transport error `e`. -/
def failDB (σ : Type) (e : String) : DB σ where
  selectEq _ _ _ s := (.error e, s)
  selectAll s := (.error e, s)
  insert _ s := (.error e, s)
  updateEq _ _ s := (.error e, s)
  deleteEq _ s := (.error e, s)

/-- `db` with a failing `insert`. -/
def insFail {σ : Type} (db : DB σ) (e : String) : DB σ :=
  { db with insert := fun _ s => (.error e, s) }

/-- An email checker accepting every string (the external collaborator is
abstract; concrete computations fix it). -/
def emailOkAll : String → Bool := fun _ => true

/-- A stored lead used by the concrete computations. -/
def row1 : Data :=
  [("id", .num 1), ("name", .str "A"), ("phone", .str "9876543210"),
   ("email", .str "a@b.c"), ("party", .str "P")]

/-- A one-row store state. -/
def rows1 : List Data := [row1]

/-! ## Lemmas about the phone matcher -/

theorem fm_digit {c : Char} (h : firstMobileDigit c = true) : pyDigit c = true := by
  simp [firstMobileDigit] at h
  have h' : c = '6' ∨ c = '7' ∨ c = '8' ∨ c = '9' := by tauto
  rcases h' with rfl | rfl | rfl | rfl <;> decide

theorem digitsTake_iff (n : Nat) (cs r : List Char) :
    digitsTake n cs = some r ↔
      ∃ pre, cs = pre ++ r ∧ pre.length = n ∧ ∀ c ∈ pre, pyDigit c = true := by
  induction n generalizing cs with
  | zero =>
    simp only [digitsTake, Option.some.injEq]
    constructor
    · rintro rfl; exact ⟨[], rfl, rfl, by simp⟩
    · rintro ⟨pre, h1, h2, -⟩
      rw [List.length_eq_zero] at h2
      subst h2; simpa using h1
  | succ n ih =>
    cases cs with
    | nil =>
      simp only [digitsTake]
      constructor
      · intro h; cases h
      · rintro ⟨pre, h1, h2, -⟩
        have := congrArg List.length h1
        simp at this
        omega
    | cons c cs' =>
      by_cases hd : pyDigit c = true
      · simp only [digitsTake, hd, if_true, ih]
        constructor
        · rintro ⟨pre, rfl, hlen, hall⟩
          refine ⟨c :: pre, rfl, by simp [hlen], ?_⟩
          intro x hx
          rcases List.mem_cons.mp hx with rfl | hx
          · exact hd
          · exact hall x hx
        · rintro ⟨pre, heq, hlen, hall⟩
          cases pre with
          | nil => simp at hlen
          | cons p0 pre' =>
            rw [List.cons_append] at heq
            injection heq with h1 h2
            subst h1
            refine ⟨pre', h2, by simpa using hlen, ?_⟩
            intro x hx
            exact hall x (List.mem_cons_of_mem _ hx)
      · simp only [digitsTake, hd, if_false]
        constructor
        · intro h; cases h
        · rintro ⟨pre, heq, hlen, hall⟩
          cases pre with
          | nil => simp at hlen
          | cons p0 pre' =>
            rw [List.cons_append] at heq
            injection heq with h1 h2
            subst h1
            exact absurd (hall _ (List.mem_cons_self _ _)) hd

theorem coreTen_cons {c : Char} {rest : List Char} :
    coreTen (c :: rest) = true ↔
      rest.length = 9 ∧ firstMobileDigit c = true ∧ ∀ x ∈ rest, pyDigit x = true := by
  simp only [coreTen, List.length_cons, Bool.and_eq_true, beq_iff_eq, List.all_eq_true,
    List.mem_cons]
  constructor
  · rintro ⟨⟨h1, h2⟩, h3⟩
    exact ⟨by omega, h2, fun x hx => h3 x (Or.inr hx)⟩
  · rintro ⟨h1, h2, h3⟩
    refine ⟨⟨by omega, h2⟩, ?_⟩
    rintro x (rfl | hx)
    · exact fm_digit h2
    · exact h3 x hx

theorem cons_append_nl {c : Char} {rest : List Char} (P : List Char → Prop) :
    (∃ t, c :: rest = t ++ ['\n'] ∧ P t) ↔
      (c = '\n' ∧ rest = [] ∧ P []) ∨ (∃ t', rest = t' ++ ['\n'] ∧ P (c :: t')) := by
  constructor
  · rintro ⟨t, heq, hp⟩
    cases t with
    | nil =>
      simp only [List.nil_append, List.cons.injEq] at heq
      exact Or.inl ⟨heq.1, heq.2, hp⟩
    | cons t0 t' =>
      rw [List.cons_append] at heq
      injection heq with h1 h2
      subst h1
      exact Or.inr ⟨t', h2, hp⟩
  · rintro (⟨rfl, rfl, hp⟩ | ⟨t', rfl, hp⟩)
    · exact ⟨[], rfl, hp⟩
    · exact ⟨c :: t', rfl, hp⟩

theorem matchCore_iff (cs : List Char) :
    matchCore cs = true ↔
      coreTen cs = true ∨ ∃ t, cs = t ++ ['\n'] ∧ coreTen t = true := by
  cases cs with
  | nil =>
    simp only [matchCore, coreTen]
    constructor
    · intro h; cases h
    · rintro (h | ⟨t, ht, -⟩)
      · simp at h
      · exact absurd (congrArg List.length ht) (by simp)
  | cons c rest =>
    constructor
    · intro h
      simp only [matchCore, Bool.and_eq_true] at h
      obtain ⟨hfm, h2⟩ := h
      cases hdt : digitsTake 9 rest with
      | none => rw [hdt] at h2; cases h2
      | some left =>
        rw [hdt] at h2
        obtain ⟨pre, hrest, hlen, hall⟩ := (digitsTake_iff 9 rest left).1 hdt
        have hleft : left = [] ∨ left = ['\n'] := by
          cases left with
          | nil => exact Or.inl rfl
          | cons x l' =>
            simp only [dollarAnchor, List.isEmpty_cons, Bool.false_or, beq_iff_eq,
              List.cons.injEq] at h2
            exact Or.inr (by simp [h2.1, h2.2])
        rcases hleft with rfl | rfl
        · rw [List.append_nil] at hrest
          subst hrest
          exact Or.inl (coreTen_cons.2 ⟨hlen, hfm, hall⟩)
        · refine Or.inr ⟨c :: pre, by simp [hrest], coreTen_cons.2 ⟨hlen, hfm, hall⟩⟩
    · rintro (h | ⟨t, heq, ht⟩)
      · obtain ⟨hlen, hfm, hall⟩ := coreTen_cons.1 h
        have hdt : digitsTake 9 rest = some [] :=
          (digitsTake_iff 9 rest []).2 ⟨rest, by simp, hlen, hall⟩
        simp [matchCore, hfm, hdt, dollarAnchor]
      · cases t with
        | nil =>
          simp only [List.nil_append, List.cons.injEq] at heq
          simp [coreTen] at ht
        | cons t0 t' =>
          rw [List.cons_append] at heq
          injection heq with h1 h2
          subst h1
          obtain ⟨hlen, hfm, hall⟩ := coreTen_cons.1 ht
          have hdt : digitsTake 9 rest = some ['\n'] :=
            (digitsTake_iff 9 rest ['\n']).2 ⟨t', h2, hlen, hall⟩
          simp [matchCore, hfm, hdt, dollarAnchor]

theorem zeroBranch_iff (cs : List Char) :
    zeroBranch cs = true ↔
      zeroSpec cs = true ∨ ∃ t, cs = t ++ ['\n'] ∧ zeroSpec t = true := by
  cases cs with
  | nil =>
    simp only [zeroBranch, zeroSpec]
    constructor
    · intro h; cases h
    · rintro (h | ⟨t, ht, -⟩)
      · cases h
      · exact absurd (congrArg List.length ht) (by simp)
  | cons c rest =>
    rw [cons_append_nl (fun t => zeroSpec t = true)]
    simp only [zeroBranch, zeroSpec, Bool.and_eq_true, beq_iff_eq, matchCore_iff]
    constructor
    · rintro ⟨rfl, h | ⟨t, rfl, ht⟩⟩
      · exact Or.inl ⟨rfl, h⟩
      · exact Or.inr (Or.inr ⟨t, rfl, rfl, ht⟩)
    · rintro (⟨rfl, h⟩ | ⟨-, -, h⟩ | ⟨t, rfl, rfl, ht⟩)
      · exact ⟨rfl, Or.inl h⟩
      · cases h
      · exact ⟨rfl, Or.inr ⟨t, rfl, ht⟩⟩

theorem sepOpt_iff (cs : List Char) :
    sepOpt cs = true ↔
      specSep cs = true ∨ ∃ t, cs = t ++ ['\n'] ∧ specSep t = true := by
  cases cs with
  | nil =>
    simp only [sepOpt, specSep, matchCore, coreTen, Bool.or_false]
    constructor
    · intro h; simp at h
    · rintro (h | ⟨t, ht, -⟩)
      · simp at h
      · exact absurd (congrArg List.length ht) (by simp)
  | cons d rest =>
    rw [cons_append_nl (fun t => specSep t = true)]
    simp only [sepOpt, specSep, Bool.or_eq_true, Bool.and_eq_true, matchCore_iff]
    rw [cons_append_nl (fun t => coreTen t = true)]
    constructor
    · rintro ((h | (⟨rfl, -, h⟩ | ⟨t, rfl, ht⟩)) | ⟨hsep, h | ⟨t, rfl, ht⟩⟩)
      · exact Or.inl (Or.inl h)
      · simp [coreTen] at h
      · exact Or.inr (Or.inr ⟨t, rfl, Or.inl ht⟩)
      · exact Or.inl (Or.inr ⟨hsep, h⟩)
      · exact Or.inr (Or.inr ⟨t, rfl, Or.inr ⟨hsep, ht⟩⟩)
    · rintro ((h | ⟨hsep, h⟩) | ⟨-, -, h⟩ | ⟨t, rfl, ht | ⟨hsep, ht⟩⟩)
      · exact Or.inl (Or.inl h)
      · exact Or.inr ⟨hsep, Or.inl h⟩
      · simp [coreTen] at h
      · exact Or.inl (Or.inr (Or.inr ⟨t, rfl, ht⟩))
      · exact Or.inr ⟨hsep, Or.inr ⟨t, rfl, ht⟩⟩

theorem plus91Branch_iff (cs : List Char) :
    plus91Branch cs = true ↔
      plusSpec cs = true ∨ ∃ t, cs = t ++ ['\n'] ∧ plusSpec t = true := by
  match cs with
  | [] =>
    simp only [plus91Branch, plusSpec]
    constructor
    · intro h; cases h
    · rintro (h | ⟨t, ht, -⟩)
      · cases h
      · exact absurd (congrArg List.length ht) (by simp)
  | [a] =>
    rw [cons_append_nl (fun t => plusSpec t = true)]
    simp only [plus91Branch, plusSpec]
    constructor
    · intro h; cases h
    · rintro (h | ⟨-, -, h⟩ | ⟨t, ht, -⟩)
      · cases h
      · cases h
      · exact absurd (congrArg List.length ht) (by simp)
  | [a, b] =>
    rw [cons_append_nl (fun t => plusSpec t = true)]
    simp only [plus91Branch, plusSpec]
    constructor
    · intro h; cases h
    · rintro (h | ⟨-, h, -⟩ | ⟨t, ht, hp⟩)
      · cases h
      · cases h
      · rcases t with _ | ⟨x, t2⟩
        · simp at hp
        · rw [List.cons_append] at ht
          injection ht with h1 h2
          exact absurd (congrArg List.length h2) (by simp)
  | a :: b :: c :: rest =>
    rw [cons_append_nl (fun t => plusSpec t = true),
      cons_append_nl (fun t => plusSpec (a :: t) = true),
      cons_append_nl (fun t => plusSpec (a :: b :: t) = true)]
    simp only [plus91Branch, plusSpec, Bool.and_eq_true, beq_iff_eq, sepOpt_iff]
    constructor
    · rintro ⟨⟨⟨rfl, rfl⟩, rfl⟩, h | ⟨t, rfl, ht⟩⟩
      · exact Or.inl ⟨⟨⟨rfl, rfl⟩, rfl⟩, h⟩
      · exact Or.inr (Or.inr (Or.inr (Or.inr ⟨t, rfl, ⟨⟨rfl, rfl⟩, rfl⟩, ht⟩)))
    · rintro (⟨⟨⟨rfl, rfl⟩, rfl⟩, h⟩ | ⟨-, h, -⟩ | ⟨-, h, -⟩ | ⟨-, -, h⟩ | ⟨t, rfl, ⟨⟨rfl, rfl⟩, rfl⟩, ht⟩)
      · exact ⟨⟨⟨rfl, rfl⟩, rfl⟩, Or.inl h⟩
      · cases h
      · cases h
      · cases h
      · exact ⟨⟨⟨rfl, rfl⟩, rfl⟩, Or.inr ⟨t, rfl, ht⟩⟩

theorem phone_dollar_iff (cs : List Char) :
    (plus91Branch cs || zeroBranch cs || matchCore cs) = true ↔
      specPhone cs = true ∨ ∃ t, cs = t ++ ['\n'] ∧ specPhone t = true := by
  simp only [Bool.or_eq_true, plus91Branch_iff, zeroBranch_iff, matchCore_iff, specPhone]
  constructor
  · rintro (((h | ⟨t, rfl, ht⟩) | h | ⟨t, rfl, ht⟩) | h | ⟨t, rfl, ht⟩)
    · exact Or.inl (Or.inl (Or.inl h))
    · exact Or.inr ⟨t, rfl, Or.inl (Or.inl ht)⟩
    · exact Or.inl (Or.inl (Or.inr h))
    · exact Or.inr ⟨t, rfl, Or.inl (Or.inr ht)⟩
    · exact Or.inl (Or.inr h)
    · exact Or.inr ⟨t, rfl, Or.inr ht⟩
  · rintro (((h | h) | h) | ⟨t, rfl, (ht | ht) | ht⟩)
    · exact Or.inl (Or.inl (Or.inl h))
    · exact Or.inl (Or.inr (Or.inl h))
    · exact Or.inr (Or.inl h)
    · exact Or.inl (Or.inl (Or.inr ⟨t, rfl, ht⟩))
    · exact Or.inl (Or.inr (Or.inr ⟨t, rfl, ht⟩))
    · exact Or.inr (Or.inr ⟨t, rfl, ht⟩)

/-! ## Lemmas about the validator -/

set_option maxHeartbeats 1000000 in
theorem email_acc {σ : Type} (emailOk : String → Bool) (db : DB σ) (d : Data)
    (ce : Bool) (acc : List String) (s1 : σ) :
    (match getVal d "email" with
     | some ev =>
       if truthy ev then
         match ev with
         | .str em =>
           if emailOk em then
             if ce then
               match db.selectEq "email" (.str em) (some 1) s1 with
               | (.ok rows, s2) =>
                 if !rows.isEmpty then ((.ok (acc ++ ["Email already exists"]) : PyResult (List String)), s2)
                 else (.ok acc, s2)
               | (.error _, s2) => (.ok (acc ++ ["Error validating email"]), s2)
             else (.ok acc, s1)
           else (.ok (acc ++ ["Invalid email format"]), s1)
         | _ => (.error emailTypeErr, s1)
       else (.ok acc, s1)
     | none => (.ok acc, s1)) =
      (match emailStep emailOk db d ce s1 with
       | (.error e, s2) => (.error e, s2)
       | (.ok ee, s2) => (.ok (acc ++ ee), s2)) := by
  unfold emailStep
  (repeat' (first | rfl | split)) <;>
    all_goals (first | rfl | (simp_all [List.append_assoc]; done))

set_option maxHeartbeats 1000000 in
theorem validate_split {σ : Type} (emailOk : String → Bool) (db : DB σ) (d : Data)
    (ce : Bool) (s : σ) :
    validate_lead_data emailOk db d ce s =
      (match phoneStep db d ce s with
       | (.error e, s1) => (.error e, s1)
       | (.ok pe, s1) =>
         match emailStep emailOk db d ce s1 with
         | (.error e, s2) => (.error e, s2)
         | (.ok ee, s2) => (.ok (requiredErrors d ++ pe ++ ee), s2)) := by
  unfold validate_lead_data phoneStep
  rcases hp : getVal d "phone" with _ | pv
  case none =>
    simp only [hp, List.append_nil]
    exact email_acc emailOk db d ce (requiredErrors d) s
  case some =>
    cases htr : truthy pv
    case false =>
      simp only [hp, htr, Bool.false_eq_true, if_false, List.append_nil]
      exact email_acc emailOk db d ce (requiredErrors d) s
    case true =>
      cases pv with
      | str p =>
        cases hv : validate_phone_number p
        case false =>
          simp only [hp, htr, hv, if_true, Bool.not_false, Bool.false_eq_true, if_false]
          exact email_acc emailOk db d ce (requiredErrors d ++ [phoneFmtMsg]) s
        case true =>
          cases hce : ce
          case false =>
            simp only [hp, htr, hv, Bool.not_true, Bool.true_eq_false, Bool.false_eq_true,
              if_false, if_true, List.append_nil]
            exact email_acc emailOk db d false (requiredErrors d) s
          case true =>
            rcases hsel : db.selectEq "phone" (.str p) (some 1) s with ⟨res, s'⟩
            cases res with
            | error e =>
              simp only [hp, htr, hv, hsel, Bool.not_true, Bool.true_eq_false, if_false, if_true]
              exact email_acc emailOk db d true (requiredErrors d ++ ["Error validating phone number"]) s'
            | ok rows =>
              cases hrows : rows.isEmpty
              case true =>
                simp only [hp, htr, hv, hsel, hrows, Bool.not_true, Bool.not_false,
                  Bool.true_eq_false, Bool.false_eq_true, if_false, if_true, List.append_nil]
                exact email_acc emailOk db d true (requiredErrors d) s'
              case false =>
                simp only [hp, htr, hv, hsel, hrows, Bool.not_true, Bool.not_false,
                  Bool.true_eq_false, Bool.false_eq_true, if_false, if_true]
                exact email_acc emailOk db d true (requiredErrors d ++ ["Phone number already exists"]) s'
      | num n => simp [hp, htr]
      | bool b => simp [hp, htr]
      | null => simp [hp, htr]

theorem phoneStep_ok_cases {σ : Type} {db : DB σ} {d : Data} {ce : Bool} {s : σ}
    {pe : List String} {s' : σ} (h : phoneStep db d ce s = (.ok pe, s')) :
    pe = [] ∨ pe = [phoneFmtMsg] ∨ pe = ["Phone number already exists"] ∨
      pe = ["Error validating phone number"] := by
  unfold phoneStep at h
  (repeat' split at h) <;> simp_all

theorem emailStep_ok_cases {σ : Type} {emailOk : String → Bool} {db : DB σ} {d : Data}
    {ce : Bool} {s : σ} {ee : List String} {s' : σ}
    (h : emailStep emailOk db d ce s = (.ok ee, s')) :
    ee = [] ∨ ee = ["Invalid email format"] ∨ ee = ["Email already exists"] ∨
      ee = ["Error validating email"] := by
  unfold emailStep at h
  (repeat' split at h) <;> simp_all

theorem phoneStep_isOk {σ : Type} (db : DB σ) (d : Data) (ce : Bool) (s : σ)
    (hs : strFieldOk d "phone" = true) :
    ∃ pe s', phoneStep db d ce s = (.ok pe, s') := by
  unfold phoneStep
  rcases hp : getVal d "phone" with _ | pv
  · exact ⟨[], s, rfl⟩
  · unfold strFieldOk at hs
    rw [hp] at hs
    cases pv with
    | str p =>
      cases htr : truthy (.str p)
      · exact ⟨[], s, by simp [htr]⟩
      · cases hv : validate_phone_number p
        · exact ⟨[phoneFmtMsg], s, by simp [htr, hv]⟩
        · cases ce
          · exact ⟨[], s, by simp [htr, hv]⟩
          · rcases hsel : db.selectEq "phone" (.str p) (some 1) s with ⟨res, s'⟩
            cases res with
            | ok rows =>
              cases hrows : rows.isEmpty
              · exact ⟨["Phone number already exists"], s', by simp [htr, hv, hsel, hrows]⟩
              · exact ⟨[], s', by simp [htr, hv, hsel, hrows]⟩
            | error e => exact ⟨["Error validating phone number"], s', by simp [htr, hv, hsel]⟩
    | num n =>
      have htr : truthy (.num n) = false := by simpa using hs
      exact ⟨[], s, by simp [htr]⟩
    | bool b =>
      have htr : truthy (.bool b) = false := by simpa using hs
      exact ⟨[], s, by simp [htr]⟩
    | null => exact ⟨[], s, by simp [truthy]⟩

theorem emailStep_isOk {σ : Type} (emailOk : String → Bool) (db : DB σ) (d : Data)
    (ce : Bool) (s : σ) (hs : strFieldOk d "email" = true) :
    ∃ ee s', emailStep emailOk db d ce s = (.ok ee, s') := by
  unfold emailStep
  rcases hp : getVal d "email" with _ | ev
  · exact ⟨[], s, rfl⟩
  · unfold strFieldOk at hs
    rw [hp] at hs
    cases ev with
    | str em =>
      cases htr : truthy (.str em)
      · exact ⟨[], s, by simp [htr]⟩
      · cases hok : emailOk em
        · exact ⟨["Invalid email format"], s, by simp [htr, hok]⟩
        · cases ce
          · exact ⟨[], s, by simp [htr, hok]⟩
          · rcases hsel : db.selectEq "email" (.str em) (some 1) s with ⟨res, s'⟩
            cases res with
            | ok rows =>
              cases hrows : rows.isEmpty
              · exact ⟨["Email already exists"], s', by simp [htr, hok, hsel, hrows]⟩
              · exact ⟨[], s', by simp [htr, hok, hsel, hrows]⟩
            | error e => exact ⟨["Error validating email"], s', by simp [htr, hok, hsel]⟩
    | num n =>
      have htr : truthy (.num n) = false := by simpa using hs
      exact ⟨[], s, by simp [htr]⟩
    | bool b =>
      have htr : truthy (.bool b) = false := by simpa using hs
      exact ⟨[], s, by simp [htr]⟩
    | null => exact ⟨[], s, by simp [truthy]⟩

/-- The store's `select` is a read-only point lookup: it never changes the
store state (spec §4.3). -/
def readOnlySel {σ : Type} (db : DB σ) : Prop :=
  ∀ f v lim s0, (db.selectEq f v lim s0).2 = s0

theorem phoneStep_state {σ : Type} (db : DB σ) (d : Data) (ce : Bool) (s : σ)
    (hro : readOnlySel db) : (phoneStep db d ce s).2 = s := by
  unfold phoneStep
  rcases hp : getVal d "phone" with _ | pv
  · rfl
  · cases htr : truthy pv
    · simp [htr]
    · cases pv with
      | str p =>
        cases hv : validate_phone_number p
        · simp [htr, hv]
        · cases ce
          · simp [htr, hv]
          · rcases hsel : db.selectEq "phone" (.str p) (some 1) s with ⟨res, s'⟩
            have h2 : s' = s := by
              have := hro "phone" (.str p) (some 1) s
              rw [hsel] at this
              exact this
            subst h2
            cases res with
            | ok rows => cases hrows : rows.isEmpty <;> simp [htr, hv, hsel, hrows]
            | error e => simp [htr, hv, hsel]
      | num n => simp [htr]
      | bool b => simp [htr]
      | null => simp [htr]

theorem emailStep_state {σ : Type} (emailOk : String → Bool) (db : DB σ) (d : Data)
    (ce : Bool) (s : σ) (hro : readOnlySel db) :
    (emailStep emailOk db d ce s).2 = s := by
  unfold emailStep
  rcases hp : getVal d "email" with _ | ev
  · rfl
  · cases htr : truthy ev
    · simp [htr]
    · cases ev with
      | str em =>
        cases hok : emailOk em
        · simp [htr, hok]
        · cases ce
          · simp [htr, hok]
          · rcases hsel : db.selectEq "email" (.str em) (some 1) s with ⟨res, s'⟩
            have h2 : s' = s := by
              have := hro "email" (.str em) (some 1) s
              rw [hsel] at this
              exact this
            subst h2
            cases res with
            | ok rows => cases hrows : rows.isEmpty <;> simp [htr, hok, hsel, hrows]
            | error e => simp [htr, hok, hsel]
      | num n => simp [htr]
      | bool b => simp [htr]
      | null => simp [htr]

theorem validate_state {σ : Type} (emailOk : String → Bool) (db : DB σ) (d : Data)
    (ce : Bool) (s : σ) (hro : readOnlySel db) :
    (validate_lead_data emailOk db d ce s).2 = s := by
  rw [validate_split]
  rcases hps : phoneStep db d ce s with ⟨pr, s1⟩
  have h1 : s1 = s := by
    have := phoneStep_state db d ce s hro
    rw [hps] at this
    exact this
  cases pr with
  | error e => simpa using h1
  | ok pe =>
    rcases hes : emailStep emailOk db d ce s1 with ⟨er, s2⟩
    have h2 : s2 = s1 := by
      have := emailStep_state emailOk db d ce s1 hro
      rw [hes] at this
      exact this
    rw [h1] at hes h2
    cases er <;> simp [h1, hes, h2]

theorem phoneStep_false_db {σ : Type} (db1 db2 : DB σ) (d : Data) (s : σ) :
    phoneStep db1 d false s = phoneStep db2 d false s := rfl

theorem emailStep_false_db {σ : Type} (emailOk : String → Bool) (db1 db2 : DB σ)
    (d : Data) (s : σ) :
    emailStep emailOk db1 d false s = emailStep emailOk db2 d false s := rfl

theorem validate_false_db {σ : Type} (emailOk : String → Bool) (db1 db2 : DB σ)
    (d : Data) (s : σ) :
    validate_lead_data emailOk db1 d false s = validate_lead_data emailOk db2 d false s := by
  rfl

theorem foldl_required (d : Data) (l : List String) (acc : List String) :
    l.foldl (fun es f => if requiredMissing d f then es ++ [f ++ " is required"] else es) acc
      = acc ++ (l.filter (fun f => requiredMissing d f)).map (fun f => f ++ " is required") := by
  induction l generalizing acc with
  | nil => simp
  | cons x l ih =>
    by_cases hx : requiredMissing d x = true
    · simp [List.foldl_cons, hx, ih, List.filter_cons]
    · simp [List.foldl_cons, hx, ih, List.filter_cons]

theorem requiredErrors_eq (d : Data) :
    requiredErrors d =
      (["name", "phone", "email", "party"].filter
        (fun f => requiredMissing d f)).map (fun f => f ++ " is required") := by
  unfold requiredErrors
  rw [foldl_required]
  simp

theorem mem_requiredErrors (d : Data) (f : String)
    (hf : f = "name" ∨ f = "phone" ∨ f = "email" ∨ f = "party") :
    ((f ++ " is required") ∈ requiredErrors d) ↔ requiredMissing d f = true := by
  rw [requiredErrors_eq]
  cases h1 : requiredMissing d "name" <;> cases h2 : requiredMissing d "phone" <;>
    cases h3 : requiredMissing d "email" <;> cases h4 : requiredMissing d "party" <;>
    rcases hf with rfl | rfl | rfl | rfl <;>
    simp [List.filter_cons, h1, h2, h3, h4]

theorem pyTry_shape {σ : Type} (pfx : String) (x : PyResult Resp × σ) :
    ∃ r s', pyTry pfx x = (.ok r, s') := by
  rcases x with ⟨r, s⟩
  cases r with
  | error e => exact ⟨(500, .msgB (pfx ++ e)), s, rfl⟩
  | ok rr => exact ⟨rr, s, rfl⟩

theorem flag_eq (d row : Data) (he : hasKey row "email" = true)
    (hp : hasKey row "phone" = true) :
    check_existing_flag d row =
      .ok (fieldDiffers d row "email" || fieldDiffers d row "phone") := by
  obtain ⟨sv, hre⟩ : ∃ v, getVal row "email" = some v := by
    unfold hasKey at he
    cases h : getVal row "email"
    · rw [h] at he; cases he
    · exact ⟨_, rfl⟩
  obtain ⟨sp, hrp⟩ : ∃ v, getVal row "phone" = some v := by
    unfold hasKey at hp
    cases h : getVal row "phone"
    · rw [h] at hp; cases hp
    · exact ⟨_, rfl⟩
  unfold check_existing_flag fieldDiffers
  rw [hre, hrp]
  rcases hde : getVal d "email" with _ | dv
  · rcases hdp : getVal d "phone" with _ | dp
    · simp
    · simp
  · cases hbe : valueBeq dv sv
    · simp [hbe]
    · simp only [hbe, Bool.not_true, Bool.true_eq_false, if_false, Bool.false_or]
      rcases hdp : getVal d "phone" with _ | dp
      · simp
      · simp

deriving instance DecidableEq for Except

theorem phoneStep_false_msgs {σ : Type} {db : DB σ} {d : Data} {s : σ}
    {pe : List String} {s' : σ} (h : phoneStep db d false s = (.ok pe, s')) :
    pe = [] ∨ pe = [phoneFmtMsg] := by
  unfold phoneStep at h
  (repeat' split at h) <;> simp_all

theorem emailStep_false_msgs {σ : Type} {emailOk : String → Bool} {db : DB σ} {d : Data}
    {s : σ} {ee : List String} {s' : σ}
    (h : emailStep emailOk db d false s = (.ok ee, s')) :
    ee = [] ∨ ee = ["Invalid email format"] := by
  unfold emailStep at h
  (repeat' split at h) <;> simp_all

theorem requiredErrors_mem_shape (d : Data) (m : String) (h : m ∈ requiredErrors d) :
    m = "name is required" ∨ m = "phone is required" ∨ m = "email is required" ∨
      m = "party is required" := by
  rw [requiredErrors_eq] at h
  cases h1 : requiredMissing d "name" <;> cases h2 : requiredMissing d "phone" <;>
    cases h3 : requiredMissing d "email" <;> cases h4 : requiredMissing d "party" <;>
    simp [List.filter_cons, h1, h2, h3, h4] at h <;> tauto

/-- A store reachable only for `id` lookups: every phone/email uniqueness
select fails.  Used to exhibit that an unchanged update consults the store
solely through the `id` lookup and the row update. -/
def idOnlyDB (e : String) : DB (List Data) :=
  { tableDB with
    selectEq := fun f v lim s =>
      if f == "id" then tableDB.selectEq f v lim s else (.error e, s) }

/-! ## The claims -/

/-- C2, counterexample to the claim as stated: the string with one
trailing newline after ten valid digits is accepted by
`validate_phone_number` (Python's `$` matches just before a final
newline), yet it does not match the pattern in the strict reading "with
nothing else before or after". -/
theorem c2_counterexample :
    validate_phone_number "9876543210\n" = true ∧
      specPhone (String.data "9876543210\n") = false := by
  constructor <;> decide

/-- C2 (amended): the phone validator accepts exactly the strings matching
`^(\+91[\s\-]?|0)?[6-9]\d{9}$` under Python's `$` semantics — the strict
pattern, or the strict pattern followed by exactly one trailing newline.
(`\d`/`\s` read over their ASCII members.) -/
theorem c2_theorem (s : String) :
    validate_phone_number s = true ↔
      specPhone s.data = true ∨ ∃ t, s.data = t ++ ['\n'] ∧ specPhone t = true :=
  phone_dollar_iff s.data

/-- C1, counterexample to the claim as stated: lead 1 stores phone
`9876543210` and email `a@b.c`; an update re-submitting the same phone with
a different email sets `check_existing` true (email differs), so the
unchanged phone IS re-checked against the store, collides with the lead's
own row, and the update fails with "Phone number already exists" —
refuting "never false-positives ... even when the other field differs". -/
theorem c1_counterexample :
    update_lead 1 [("name", .str "A"), ("phone", .str "9876543210"),
        ("email", .str "b@b.c"), ("party", .str "P")] emailOkAll tableDB rows1
      = (.ok (400, .errsB ["Phone number already exists"]), rows1) := by
  decide

/-- C1 (amended): an update whose supplied email and phone each equal the
stored values (or are absent) never produces a duplicate error: the flag
is computed false, no uniqueness lookup runs, and any 400 error list the
update returns contains neither "Phone number already exists" nor "Email
already exists".  The claim's further clause "even when the other field
differs" is false (see the counterexample): `check_existing` is a single
flag covering both fields, so one differing field re-checks the other,
unchanged one against the lead's own row. -/
theorem c1_theorem {σ : Type} (db : DB σ) (emailOk : String → Bool) (lead_id : Int)
    (d row : Data) (rest : List Data) (s s1 : σ)
    (hsel : db.selectEq "id" (.num lead_id) none s = (.ok (row :: rest), s1))
    (hke : hasKey row "email" = true) (hkp : hasKey row "phone" = true)
    (hde : fieldDiffers d row "email" = false) (hdp : fieldDiffers d row "phone" = false) :
    ∀ errs s', update_lead lead_id d emailOk db s = (.ok (400, .errsB errs), s') →
      "Phone number already exists" ∉ errs ∧ "Email already exists" ∉ errs := by
  intro errs s' hres
  unfold update_lead at hres
  by_cases hd : d.isEmpty = true
  · rw [if_pos hd] at hres
    simp at hres
  · rw [if_neg hd] at hres
    rw [hsel] at hres
    simp only [] at hres
    rw [flag_eq d row hke hkp, hde, hdp] at hres
    simp only [Bool.or_self] at hres
    rcases hv : validate_lead_data emailOk db d false s1 with ⟨vr, s2⟩
    rw [hv] at hres
    cases vr with
    | error e => simp [pyTry] at hres
    | ok errs2 =>
      by_cases hne : errs2.isEmpty = true
      · simp only [hne, Bool.not_true, Bool.false_eq_true, if_false] at hres
        rcases hu : db.updateEq d lead_id s2 with ⟨ur, s3⟩
        rw [hu] at hres
        cases ur with
        | error e => simp [pyTry] at hres
        | ok urows =>
          cases urows with
          | nil => simp [pyTry] at hres
          | cons r0 rs => simp [pyTry] at hres
      · simp only [hne, Bool.not_false, if_true] at hres
        simp [pyTry] at hres
        obtain ⟨herrs, hs⟩ := hres
        subst herrs
        rw [validate_split] at hv
        rcases hps : phoneStep db d false s1 with ⟨pr, sp⟩
        rw [hps] at hv
        cases pr with
        | error e => simp at hv
        | ok pe =>
          simp only [] at hv
          rcases hes : emailStep emailOk db d false sp with ⟨er, se⟩
          rw [hes] at hv
          cases er with
          | error e => simp at hv
          | ok ee =>
            simp only [Prod.mk.injEq, Except.ok.injEq] at hv
            obtain ⟨hlist, -⟩ := hv
            rw [← hlist]
            have hpe := phoneStep_false_msgs hps
            have hee := emailStep_false_msgs hes
            constructor <;>
            · intro hmem
              rw [List.append_assoc, List.mem_append, List.mem_append] at hmem
              rcases hmem with hmem | hmem | hmem
              · rcases requiredErrors_mem_shape d _ hmem with h | h | h | h <;> simp_all
              · rcases hpe with rfl | rfl <;> simp_all [phoneFmtMsg]
              · rcases hee with rfl | rfl <;> simp_all

/-- A patch body re-submitting lead 1's own phone and email unchanged. -/
def patchSame : Data := [("phone", .str "9876543210"), ("email", .str "a@b.c")]

/-- C1 witness: the unchanged patch `patchSame` against the one-row store
is rejected only for its missing required fields; by `c1_theorem` the
resulting 400 list cannot contain a duplicate error, and indeed it is
exactly the two required-field messages. -/
theorem c1_witness :
    "Phone number already exists" ∉ ["name is required", "party is required"] ∧
      "Email already exists" ∉ ["name is required", "party is required"] :=
  c1_theorem tableDB emailOkAll 1 patchSame row1 [] rows1 rows1 (by decide) (by decide)
    (by decide) (by decide) (by decide) ["name is required", "party is required"] rows1
    (by decide)

/-- C5: on the update path `check_existing` is computed exactly as "the
body supplies an email differing from the stored email, or a phone
differing from the stored phone" (for stored rows carrying both keys);
with the flag false the validator's result is independent of the store
(no uniqueness lookup at all); and an update whose supplied email and
phone are unchanged behaves identically under any two stores that agree
on `id` lookups and row updates — the phone/email lookup behavior is
never consulted. -/
theorem c5_theorem :
    (∀ d row : Data, hasKey row "email" = true → hasKey row "phone" = true →
       check_existing_flag d row =
         .ok (fieldDiffers d row "email" || fieldDiffers d row "phone"))
  ∧ (∀ (σ : Type) (emailOk : String → Bool) (db1 db2 : DB σ) (d : Data) (s : σ),
       validate_lead_data emailOk db1 d false s = validate_lead_data emailOk db2 d false s)
  ∧ (∀ (σ : Type) (emailOk : String → Bool) (db1 db2 : DB σ) (lead_id : Int)
       (d row : Data) (rest : List Data) (s s1 : σ),
       (∀ v lim s0, db1.selectEq "id" v lim s0 = db2.selectEq "id" v lim s0) →
       (∀ d0 i s0, db1.updateEq d0 i s0 = db2.updateEq d0 i s0) →
       db1.selectEq "id" (.num lead_id) none s = (.ok (row :: rest), s1) →
       hasKey row "email" = true → hasKey row "phone" = true →
       fieldDiffers d row "email" = false → fieldDiffers d row "phone" = false →
       update_lead lead_id d emailOk db1 s = update_lead lead_id d emailOk db2 s) := by
  refine ⟨fun d row he hp => flag_eq d row he hp,
    fun σ emailOk db1 db2 d s => validate_false_db emailOk db1 db2 d s, ?_⟩
  intro σ emailOk db1 db2 lead_id d row rest s s1 hselAgree hupdAgree hsel hke hkp hde hdp
  unfold update_lead
  by_cases hd : d.isEmpty = true
  · rw [if_pos hd, if_pos hd]
  · rw [if_neg hd, if_neg hd]
    have hsel2 : db2.selectEq "id" (.num lead_id) none s = (.ok (row :: rest), s1) := by
      rw [← hselAgree]; exact hsel
    rw [hsel, hsel2]
    simp only []
    rw [flag_eq d row hke hkp, hde, hdp]
    simp only [Bool.or_self]
    rw [validate_false_db emailOk db1 db2 d s1]
    rcases hv : validate_lead_data emailOk db2 d false s1 with ⟨vr, s2⟩
    cases vr with
    | error e => rfl
    | ok errs2 =>
      by_cases hne : errs2.isEmpty = true
      · simp only [hne, Bool.not_true, Bool.false_eq_true, if_false]
        rw [hupdAgree d lead_id s2]
      · simp only [hne, Bool.not_false, if_true]

/-- C5 witness: the unchanged patch against lead 1 computes the flag
false, validates identically under an unreachable store, and the whole
update is insensitive to a store whose phone/email lookups all fail. -/
theorem c5_witness :
    check_existing_flag patchSame row1 = .ok false ∧
    validate_lead_data emailOkAll (failDB (List Data) "offline") patchSame false rows1
      = validate_lead_data emailOkAll tableDB patchSame false rows1 ∧
    update_lead 1 patchSame emailOkAll tableDB rows1
      = update_lead 1 patchSame emailOkAll (idOnlyDB "offline") rows1 := by
  refine ⟨?_,
    c5_theorem.2.1 (List Data) emailOkAll (failDB (List Data) "offline") tableDB patchSame rows1,
    ?_⟩
  · have h := c5_theorem.1 patchSame row1 (by decide) (by decide)
    rw [h]
    decide
  · exact c5_theorem.2.2 (List Data) emailOkAll tableDB (idOnlyDB "offline") 1 patchSame row1 []
      rows1 rows1 (fun v lim s0 => rfl) (fun d0 i s0 => rfl) (by decide) (by decide) (by decide)
      (by decide) (by decide)

theorem validate_ok_split {σ : Type} {emailOk : String → Bool} {db : DB σ} {d : Data}
    {ce : Bool} {s : σ} {errs : List String} {s' : σ}
    (h : validate_lead_data emailOk db d ce s = (.ok errs, s')) :
    ∃ pe ee, errs = requiredErrors d ++ pe ++ ee ∧
      (pe = [] ∨ pe = [phoneFmtMsg] ∨ pe = ["Phone number already exists"] ∨
        pe = ["Error validating phone number"]) ∧
      (ee = [] ∨ ee = ["Invalid email format"] ∨ ee = ["Email already exists"] ∨
        ee = ["Error validating email"]) := by
  rw [validate_split] at h
  rcases hps : phoneStep db d ce s with ⟨pr, s1⟩
  rw [hps] at h
  cases pr with
  | error e => simp at h
  | ok pe =>
    simp only [] at h
    rcases hes : emailStep emailOk db d ce s1 with ⟨er, s2⟩
    rw [hes] at h
    cases er with
    | error e => simp at h
    | ok ee =>
      simp only [Prod.mk.injEq, Except.ok.injEq] at h
      exact ⟨pe, ee, h.1.symm, phoneStep_ok_cases hps, emailStep_ok_cases hes⟩

/-- C3 (amended): for every input map whose phone and email entries, when
present and truthy, are strings, the validator returns (raises nothing)
the list `requiredErrors ++ phone-messages ++ email-messages` in that
order, where the email segment is computed by the email block regardless
of the phone block's outcome — no short-circuiting between the branches.
The restriction is forced by the counterexample: a truthy non-string phone
raises a `TypeError` out of the validator, and then the email branch never
runs. -/
theorem c3_theorem {σ : Type} (emailOk : String → Bool) (db : DB σ) (d : Data)
    (ce : Bool) (s : σ)
    (hphone : strFieldOk d "phone" = true) (hemail : strFieldOk d "email" = true) :
    ∃ pe s1 ee s2, phoneStep db d ce s = (.ok pe, s1) ∧
      emailStep emailOk db d ce s1 = (.ok ee, s2) ∧
      validate_lead_data emailOk db d ce s = (.ok (requiredErrors d ++ pe ++ ee), s2) := by
  obtain ⟨pe, s1, hps⟩ := phoneStep_isOk db d ce s hphone
  obtain ⟨ee, s2, hes⟩ := emailStep_isOk emailOk db d ce s1 hemail
  refine ⟨pe, s1, ee, s2, hps, hes, ?_⟩
  rw [validate_split, hps]
  simp only []
  rw [hes]

/-- A body duplicating lead 1's phone with a fresh email. -/
def bodyDupPhone : Data :=
  [("name", .str "A"), ("phone", .str "9876543210"), ("email", .str "b@b.c"), ("party", .str "P")]

/-- C3 witness: a body duplicating the stored phone passes all required
checks, collects the phone-branch duplicate message, and the email branch
still runs (contributing its empty segment). -/
theorem c3_witness :
    validate_lead_data emailOkAll tableDB bodyDupPhone true rows1
      = (.ok (requiredErrors bodyDupPhone ++ ["Phone number already exists"] ++ []), rows1) := by
  obtain ⟨pe, s1, ee, s2, hps, hes, hval⟩ :=
    c3_theorem emailOkAll tableDB bodyDupPhone true rows1 (by decide) (by decide)
  have h1 : phoneStep tableDB bodyDupPhone true rows1
      = (.ok ["Phone number already exists"], rows1) := by decide
  rw [h1] at hps
  simp only [Prod.mk.injEq, Except.ok.injEq] at hps
  obtain ⟨hpe, hs1⟩ := hps
  subst hpe
  subst hs1
  have h2 : emailStep emailOkAll tableDB bodyDupPhone true rows1 = (.ok [], rows1) := by decide
  rw [h2] at hes
  simp only [Prod.mk.injEq, Except.ok.injEq] at hes
  obtain ⟨hee, hs2⟩ := hes
  subst hee
  subst hs2
  exact hval

/-- A body whose phone is a truthy JSON number. -/
def bodyNumPhone : Data :=
  [("name", .str "A"), ("phone", .num 9876543210), ("email", .str "a@b.c"), ("party", .str "P")]

/-- C3, counterexample to the claim as stated: with a truthy non-string
phone the phone branch raises (`re.match` rejects non-strings) and the
validator returns no list at all — in particular the email branch (whose
checker here rejects every address and would append "Invalid email
format") never runs, so a failure in the phone branch does prevent the
email branch. -/
theorem c3_counterexample :
    validate_lead_data (fun _ => false) tableDB bodyNumPhone true rows1
      = (.error reTypeErr, rows1) := by decide

/-- C8: whenever the validator returns a list, that list contains
`"<field> is required"` exactly when the field's key is absent or its
value is falsy under Python truthiness; and `0`, `""`, `None` and `False`
are all falsy, so `0`, the empty string, and an absent key are treated
identically. -/
theorem c8_theorem {σ : Type} (emailOk : String → Bool) (db : DB σ) (d : Data)
    (ce : Bool) (s : σ) (errs : List String) (s' : σ)
    (h : validate_lead_data emailOk db d ce s = (.ok errs, s')) :
    (("name is required") ∈ errs ↔ requiredMissing d "name" = true) ∧
    (("phone is required") ∈ errs ↔ requiredMissing d "phone" = true) ∧
    (("email is required") ∈ errs ↔ requiredMissing d "email" = true) ∧
    (("party is required") ∈ errs ↔ requiredMissing d "party" = true) ∧
    truthy (.num 0) = false ∧ truthy (.str "") = false ∧ truthy .null = false ∧
      truthy (.bool false) = false := by
  obtain ⟨pe, ee, rfl, hpe, hee⟩ := validate_ok_split h
  refine ⟨?_, ?_, ?_, ?_, rfl, rfl, rfl, rfl⟩ <;>
  · simp only [List.mem_append]
    first
    | rw [(by rfl : ("name is required" : String) = "name" ++ " is required"),
        mem_requiredErrors d "name" (by tauto)]
    | rw [(by rfl : ("phone is required" : String) = "phone" ++ " is required"),
        mem_requiredErrors d "phone" (by tauto)]
    | rw [(by rfl : ("email is required" : String) = "email" ++ " is required"),
        mem_requiredErrors d "email" (by tauto)]
    | rw [(by rfl : ("party is required" : String) = "party" ++ " is required"),
        mem_requiredErrors d "party" (by tauto)]
    constructor
    · rintro ((hm | hm) | hm)
      · exact hm
      · rcases hpe with rfl | rfl | rfl | rfl <;> exact absurd hm (by decide)
      · rcases hee with rfl | rfl | rfl | rfl <;> exact absurd hm (by decide)
    · exact fun hm => Or.inl (Or.inl hm)

/-- A body supplying only a phone. -/
def patchPhoneOnly : Data := [("phone", .str "9876543210")]

/-- C8 witness: a phone-only body against the empty store yields exactly
the three missing-field messages, and the membership equivalences hold at
that output. -/
theorem c8_witness :
    (("name is required") ∈ ["name is required", "email is required", "party is required"] ↔
      requiredMissing patchPhoneOnly "name" = true) ∧
    (("phone is required") ∈ ["name is required", "email is required", "party is required"] ↔
      requiredMissing patchPhoneOnly "phone" = true) ∧
    (("email is required") ∈ ["name is required", "email is required", "party is required"] ↔
      requiredMissing patchPhoneOnly "email" = true) ∧
    (("party is required") ∈ ["name is required", "email is required", "party is required"] ↔
      requiredMissing patchPhoneOnly "party" = true) ∧
    truthy (.num 0) = false ∧ truthy (.str "") = false ∧ truthy .null = false ∧
      truthy (.bool false) = false :=
  c8_theorem emailOkAll tableDB patchPhoneOnly true ([] : List Data)
    ["name is required", "email is required", "party is required"] [] (by decide)

/-- C4 (amended): when the phone format check passes and `checkExisting`
is true and the phone store lookup fails, the validator swallows the
failure, appends "Error validating phone number", and the create request
completes as a 400 validation failure — provided the email value, when
present and truthy, is a string.  Symmetrically for email: when the email
syntax check passes, `checkExisting` is true, and the email lookup fails
at the state the phone block left behind, the validator appends "Error
validating email" and the request completes as 400 — provided the phone
block completes without raising (phone absent, falsy, or a string,
whatever its own lookup's outcome, captured by the `phoneStep` result
hypothesis).  The provisos are forced by the counterexample: a truthy
non-string other field makes the validator raise even after the lookup
failure was swallowed, and the request crashes instead of returning 400. -/
theorem c4_theorem :
    (∀ (σ : Type) (db : DB σ) (emailOk : String → Bool) (now : String) (d : Data)
       (s s1 : σ) (p e : String),
       getVal d "phone" = some (.str p) → p ≠ "" → validate_phone_number p = true →
       db.selectEq "phone" (.str p) (some 1) s = (.error e, s1) →
       strFieldOk d "email" = true →
       ∃ errs s2, validate_lead_data emailOk db d true s = (.ok errs, s2) ∧
         "Error validating phone number" ∈ errs ∧
         create_lead now emailOk db d s = (.ok (400, .errsB errs), s2))
  ∧ (∀ (σ : Type) (db : DB σ) (emailOk : String → Bool) (now : String) (d : Data)
       (s sp s1 : σ) (pe : List String) (em e : String),
       phoneStep db d true s = (.ok pe, sp) →
       getVal d "email" = some (.str em) → em ≠ "" → emailOk em = true →
       db.selectEq "email" (.str em) (some 1) sp = (.error e, s1) →
       ∃ errs s2, validate_lead_data emailOk db d true s = (.ok errs, s2) ∧
         "Error validating email" ∈ errs ∧
         create_lead now emailOk db d s = (.ok (400, .errsB errs), s2)) := by
  constructor
  · intro σ db emailOk now d s s1 p e hgp hp0 hv hsel hemail
    have htr : truthy (.str p) = true := by simp [truthy, hp0]
    have hps : phoneStep db d true s = (.ok ["Error validating phone number"], s1) := by
      unfold phoneStep
      rw [hgp]
      simp [htr, hv, hsel]
    obtain ⟨ee, s2, hes⟩ := emailStep_isOk emailOk db d true s1 hemail
    have hval : validate_lead_data emailOk db d true s
        = (.ok (requiredErrors d ++ ["Error validating phone number"] ++ ee), s2) := by
      rw [validate_split, hps]
      simp only []
      rw [hes]
    refine ⟨requiredErrors d ++ ["Error validating phone number"] ++ ee, s2, hval, ?_, ?_⟩
    · exact List.mem_append_left _ (List.mem_append_right _ (List.mem_singleton_self _))
    · have hd : d.isEmpty = false := by
        cases d with
        | nil => simp [getVal] at hgp
        | cons a l => rfl
      unfold create_lead
      rw [hd]
      simp only [Bool.false_eq_true, if_false]
      rw [hval]
      have hne : (requiredErrors d ++ ["Error validating phone number"] ++ ee).isEmpty
          = false := by
        simp [List.isEmpty_iff]
      simp only [hne, Bool.not_false, if_true]
  · intro σ db emailOk now d s sp s1 pe em e hps hge hem0 hok hsel
    have htr : truthy (.str em) = true := by simp [truthy, hem0]
    have hes : emailStep emailOk db d true sp = (.ok ["Error validating email"], s1) := by
      unfold emailStep
      rw [hge]
      simp [htr, hok, hsel]
    have hval : validate_lead_data emailOk db d true s
        = (.ok (requiredErrors d ++ pe ++ ["Error validating email"]), s1) := by
      rw [validate_split, hps]
      simp only []
      rw [hes]
    refine ⟨requiredErrors d ++ pe ++ ["Error validating email"], s1, hval, ?_, ?_⟩
    · exact List.mem_append_right _ (List.mem_singleton_self _)
    · have hd : d.isEmpty = false := by
        cases d with
        | nil => simp [getVal] at hge
        | cons a l => rfl
      unfold create_lead
      rw [hd]
      simp only [Bool.false_eq_true, if_false]
      rw [hval]
      have hne : (requiredErrors d ++ pe ++ ["Error validating email"]).isEmpty = false := by
        simp [List.isEmpty_iff]
      simp only [hne, Bool.not_false, if_true]

/-- A body whose email is a truthy JSON number. -/
def bodyBadEmail : Data :=
  [("name", .str "A"), ("phone", .str "9876543210"), ("email", .num 5), ("party", .str "P")]

/-- C4, counterexample to the claim as stated: the phone format check
passes, `checkExisting` is true, and the phone uniqueness lookup fails
("boom"), so per the claim the request should complete as a 400 with
"Error validating phone number"; but the body's truthy non-string email
makes the validator raise, and `create_lead` propagates the exception —
no 400 response is produced. -/
theorem c4_counterexample :
    create_lead "T" emailOkAll (failDB (List Data) "boom") bodyBadEmail rows1
      = (.error emailTypeErr, rows1) := by decide

/-- A body omitting the phone. -/
def bodyNoPhone : Data :=
  [("name", .str "A"), ("email", .str "a@b.c"), ("party", .str "P")]

/-- A store whose email lookups fail while every other operation behaves
as the row-backed table. -/
def emailFailDB (e : String) : DB (List Data) :=
  { tableDB with
    selectEq := fun f v lim s =>
      if f == "email" then (.error e, s) else tableDB.selectEq f v lim s }

/-- C4 witness: against an all-failing store, a complete body collects
both lookup-failure messages; a complete body with a valid string phone
whose phone lookup succeeds (finding a duplicate) but whose email lookup
alone fails collects the duplicate and the email lookup-failure message;
and a phone-less body collects the required error plus the email
lookup-failure message — all as 400 responses. -/
theorem c4_witness :
    create_lead "T" emailOkAll (failDB (List Data) "boom") bodyDupPhone rows1
      = (.ok (400, .errsB ["Error validating phone number", "Error validating email"]), rows1) ∧
    create_lead "T" emailOkAll (emailFailDB "boom") bodyDupPhone rows1
      = (.ok (400, .errsB ["Phone number already exists", "Error validating email"]), rows1) ∧
    create_lead "T" emailOkAll (failDB (List Data) "boom") bodyNoPhone rows1
      = (.ok (400, .errsB ["phone is required", "Error validating email"]), rows1) := by
  refine ⟨?_, ?_, ?_⟩
  · obtain ⟨errs, s2, hval, hmem, hcr⟩ := c4_theorem.1 (List Data) (failDB (List Data) "boom")
      emailOkAll "T" bodyDupPhone rows1 rows1 "9876543210" "boom" (by decide) (by decide)
      (by decide) (by decide) (by decide)
    have hv2 : validate_lead_data emailOkAll (failDB (List Data) "boom") bodyDupPhone true rows1
        = (.ok ["Error validating phone number", "Error validating email"], rows1) := by decide
    rw [hval] at hv2
    simp only [Prod.mk.injEq, Except.ok.injEq] at hv2
    obtain ⟨h1, h2⟩ := hv2
    rw [hcr, h1, h2]
  · obtain ⟨errs, s2, hval, hmem, hcr⟩ := c4_theorem.2 (List Data) (emailFailDB "boom")
      emailOkAll "T" bodyDupPhone rows1 rows1 rows1 ["Phone number already exists"] "b@b.c"
      "boom" (by decide) (by decide) (by decide) (by decide) (by decide)
    have hv2 : validate_lead_data emailOkAll (emailFailDB "boom") bodyDupPhone true rows1
        = (.ok ["Phone number already exists", "Error validating email"], rows1) := by decide
    rw [hval] at hv2
    simp only [Prod.mk.injEq, Except.ok.injEq] at hv2
    obtain ⟨h1, h2⟩ := hv2
    rw [hcr, h1, h2]
  · obtain ⟨errs, s2, hval, hmem, hcr⟩ := c4_theorem.2 (List Data) (failDB (List Data) "boom")
      emailOkAll "T" bodyNoPhone rows1 rows1 rows1 [] "a@b.c" "boom" (by decide) (by decide)
      (by decide) (by decide) (by decide)
    have hv2 : validate_lead_data emailOkAll (failDB (List Data) "boom") bodyNoPhone true rows1
        = (.ok ["phone is required", "Error validating email"], rows1) := by decide
    rw [hval] at hv2
    simp only [Prod.mk.injEq, Except.ok.injEq] at hv2
    obtain ⟨h1, h2⟩ := hv2
    rw [hcr, h1, h2]

theorem getVal_append_single (d : Data) (k k' : String) (v : Value) :
    getVal (d ++ [(k', v)]) k =
      match getVal d k with
      | some w => some w
      | none => if k' == k then some v else none := by
  induction d with
  | nil =>
    by_cases hk : (k' == k) = true <;> simp [getVal, List.find?, hk]
  | cons p l ih =>
    by_cases hp : (p.1 == k) = true <;> simp [getVal, List.find?_cons, hp] at ih ⊢ <;>
      exact ih

theorem getVal_some_layer {d : Data} {k : String} {v : Value} (h : getVal d k = some v)
    (b : Bool) (k' : String) (w : Value) :
    getVal (if b then d ++ [(k', w)] else d) k = some v := by
  cases b
  · simpa using h
  · simp [getVal_append_single, h]

theorem getVal_layer_none {d : Data} {k : String} (h : getVal d k = none) (b : Bool)
    (k' : String) (hk : (k' == k) = false) (w : Value) :
    getVal (if b then d ++ [(k', w)] else d) k = none := by
  cases b
  · simpa using h
  · rw [if_pos rfl, getVal_append_single, h]
    simp [hk]

theorem hasKey_false_of_getVal_none {d : Data} {k : String} (h : getVal d k = none) :
    hasKey d k = false := by
  unfold hasKey
  rw [h]
  rfl

theorem getVal_none_of_hasKey_false {d : Data} {k : String} (h : hasKey d k = false) :
    getVal d k = none := by
  unfold hasKey at h
  cases hg : getVal d k
  · rfl
  · rw [hg] at h
    cases h

/-- C6: a create request that passes validation inserts the body with
`lastconnected` set to the current UTC time when the key is absent,
`status` defaulting to "Connected" and `tag` to "Lead" when those keys
are absent, and answers 201 with the store's persisted row under the
`lead` key; keys already present in the body are never overwritten by the
defaults (the last conjunct: every existing binding is preserved). -/
theorem c6_theorem {σ : Type} (db : DB σ) (emailOk : String → Bool) (now : String)
    (d : Data) (s s1 s2 : σ) (r : Data) (rs : List Data)
    (hd : d ≠ [])
    (hval : validate_lead_data emailOk db d true s = (.ok [], s1))
    (hins : db.insert (fillLead now d) s1 = (.ok (r :: rs), s2)) :
    create_lead now emailOk db d s = (.ok (201, .leadB r), s2) ∧
    (hasKey d "lastconnected" = false →
      getVal (fillLead now d) "lastconnected" = some (.str now)) ∧
    (hasKey d "status" = false → getVal (fillLead now d) "status" = some (.str "Connected")) ∧
    (hasKey d "tag" = false → getVal (fillLead now d) "tag" = some (.str "Lead")) ∧
    (∀ k v, getVal d k = some v → getVal (fillLead now d) k = some v) := by
  refine ⟨?_, ?_, ?_, ?_, ?_⟩
  · have hde : d.isEmpty = false := by
      cases d with
      | nil => exact absurd rfl hd
      | cons a l => rfl
    unfold create_lead
    rw [hde]
    simp only [Bool.false_eq_true, if_false]
    rw [hval]
    simp only [List.isEmpty_nil, Bool.not_true, Bool.false_eq_true, if_false]
    rw [hins]
    simp [pyTry]
  · intro hlc
    have h0 : getVal d "lastconnected" = none := getVal_none_of_hasKey_false hlc
    simp only [fillLead, hlc, Bool.not_false, if_true]
    refine getVal_some_layer (getVal_some_layer ?_ _ _ _) _ _ _
    rw [getVal_append_single, h0]
    simp
  · intro hst
    have h0 : getVal d "status" = none := getVal_none_of_hasKey_false hst
    simp only [fillLead]
    have h1 : getVal (if !hasKey d "lastconnected" then
        d ++ [("lastconnected", Value.str now)] else d) "status" = none :=
      getVal_layer_none h0 _ _ (by decide) _
    have h2 : hasKey (if !hasKey d "lastconnected" then
        d ++ [("lastconnected", Value.str now)] else d) "status" = false :=
      hasKey_false_of_getVal_none h1
    rw [h2]
    simp only [Bool.not_false, if_true]
    refine getVal_some_layer ?_ _ _ _
    rw [getVal_append_single, h1]
    simp
  · intro htg
    have h0 : getVal d "tag" = none := getVal_none_of_hasKey_false htg
    simp only [fillLead]
    have h1 : getVal (if !hasKey d "lastconnected" then
        d ++ [("lastconnected", Value.str now)] else d) "tag" = none :=
      getVal_layer_none h0 _ _ (by decide) _
    have h2 : getVal (if !hasKey (if !hasKey d "lastconnected" then
          d ++ [("lastconnected", Value.str now)] else d) "status" then
        (if !hasKey d "lastconnected" then d ++ [("lastconnected", Value.str now)] else d)
          ++ [("status", Value.str "Connected")]
        else (if !hasKey d "lastconnected" then
          d ++ [("lastconnected", Value.str now)] else d)) "tag" = none :=
      getVal_layer_none h1 _ _ (by decide) _
    have h3 : hasKey (if !hasKey (if !hasKey d "lastconnected" then
          d ++ [("lastconnected", Value.str now)] else d) "status" then
        (if !hasKey d "lastconnected" then d ++ [("lastconnected", Value.str now)] else d)
          ++ [("status", Value.str "Connected")]
        else (if !hasKey d "lastconnected" then
          d ++ [("lastconnected", Value.str now)] else d)) "tag" = false :=
      hasKey_false_of_getVal_none h2
    rw [h3]
    simp only [Bool.not_false, if_true]
    rw [getVal_append_single, h2]
    simp
  · intro k v h
    simp only [fillLead]
    exact getVal_some_layer (getVal_some_layer (getVal_some_layer h _ _ _) _ _ _) _ _ _

/-- A fully valid create body. -/
def bodyValid : Data :=
  [("name", .str "A"), ("phone", .str "9876543210"), ("email", .str "a@b.c"), ("party", .str "P")]

/-- The row the store persists for `bodyValid` at time "T": the body, the
three filled defaults, and the store-assigned id. -/
def fullRow : Data :=
  [("name", .str "A"), ("phone", .str "9876543210"), ("email", .str "a@b.c"),
   ("party", .str "P"), ("lastconnected", .str "T"), ("status", .str "Connected"),
   ("tag", .str "Lead"), ("id", .num 1)]

/-- C6 witness: creating `bodyValid` at time "T" against the empty store
persists exactly the body plus the three defaults and the assigned id,
and answers 201 with that row. -/
theorem c6_witness :
    create_lead "T" emailOkAll tableDB bodyValid [] = (.ok (201, .leadB fullRow), [fullRow]) ∧
    getVal (fillLead "T" bodyValid) "lastconnected" = some (.str "T") ∧
    getVal (fillLead "T" bodyValid) "status" = some (.str "Connected") ∧
    getVal (fillLead "T" bodyValid) "tag" = some (.str "Lead") ∧
    getVal (fillLead "T" bodyValid) "name" = some (.str "A") := by
  obtain ⟨h1, h2, h3, h4, h5⟩ := c6_theorem tableDB emailOkAll "T" bodyValid [] [] [fullRow]
    fullRow [] (by decide) (by decide) (by decide)
  exact ⟨h1, h2 (by decide), h3 (by decide), h4 (by decide), h5 "name" (.str "A") (by decide)⟩

/-- A handler call that produced a response rather than an uncaught
exception. -/
def isOk {α : Type} : Except String α → Bool
  | .ok _ => true
  | .error _ => false

theorem isOk_pyTry {σ : Type} (pfx : String) (x : PyResult Resp × σ) :
    isOk (pyTry pfx x).1 = true := by
  obtain ⟨r, s', h⟩ := pyTry_shape pfx x
  rw [h]
  rfl

/-- C7, counterexample to the claim as stated: in `create_lead` the body
check and the validation call run before the `try` block (app.py 102-108
versus 116-121), so the `TypeError` raised by the phone matcher on a
truthy non-string phone propagates out of the handler unhandled — no
500-with-message response is produced. -/
theorem c7_counterexample :
    create_lead "T" emailOkAll tableDB bodyNumPhone [] = (.error reTypeErr, []) := by decide

/-- C7 (amended): the list, get-by-id, delete, and update handlers never
let an exception escape (their whole bodies sit inside `try`), and the
create handler cannot raise once its validation call has returned; store
failures inside any handler's `try` become 500 responses embedding the
underlying error text (shown for all five operations, with a
failing-insert store for create).  The unprotected prefix of create is the
one escape hatch, exhibited by the counterexample. -/
theorem c7_theorem :
    (∀ (σ : Type) (db : DB σ) (s : σ), isOk (get_all_leads db s).1 = true)
  ∧ (∀ (σ : Type) (db : DB σ) (lead_id : Int) (s : σ), isOk (get_lead lead_id db s).1 = true)
  ∧ (∀ (σ : Type) (db : DB σ) (lead_id : Int) (s : σ), isOk (delete_lead lead_id db s).1 = true)
  ∧ (∀ (σ : Type) (db : DB σ) (lead_id : Int) (d : Data) (emailOk : String → Bool) (s : σ),
       isOk (update_lead lead_id d emailOk db s).1 = true)
  ∧ (∀ (σ : Type) (db : DB σ) (now : String) (d : Data) (emailOk : String → Bool)
       (s s1 : σ) (errs : List String),
       validate_lead_data emailOk db d true s = (.ok errs, s1) →
       isOk (create_lead now emailOk db d s).1 = true)
  ∧ (∀ (σ : Type) (e : String) (s : σ),
       get_all_leads (failDB σ e) s = (.ok (500, .msgB ("Error fetching leads: " ++ e)), s) ∧
       get_lead 1 (failDB σ e) s = (.ok (500, .msgB ("Error fetching lead: " ++ e)), s) ∧
       delete_lead 1 (failDB σ e) s = (.ok (500, .msgB ("Error deleting lead: " ++ e)), s))
  ∧ (∀ e : String,
       update_lead 1 patchSame emailOkAll (failDB (List Data) e) rows1
         = (.ok (500, .msgB ("Error updating lead: " ++ e)), rows1) ∧
       create_lead "T" emailOkAll (insFail tableDB e) bodyValid []
         = (.ok (500, .msgB ("Error creating lead: " ++ e)), [])) := by
  refine ⟨?_, ?_, ?_, ?_, ?_, ?_, ?_⟩
  · intro σ db s
    unfold get_all_leads
    exact isOk_pyTry _ _
  · intro σ db lead_id s
    unfold get_lead
    exact isOk_pyTry _ _
  · intro σ db lead_id s
    unfold delete_lead
    exact isOk_pyTry _ _
  · intro σ db lead_id d emailOk s
    unfold update_lead
    by_cases hd : d.isEmpty = true
    · rw [if_pos hd]
      rfl
    · rw [if_neg hd]
      exact isOk_pyTry _ _
  · intro σ db now d emailOk s s1 errs h
    unfold create_lead
    by_cases hd : d.isEmpty = true
    · rw [if_pos hd]
      rfl
    · rw [if_neg hd, h]
      simp only []
      by_cases he : errs.isEmpty = true
      · simp only [he, Bool.not_true, Bool.false_eq_true, if_false]
        exact isOk_pyTry _ _
      · simp only [he, Bool.not_false, if_true]
        rfl
  · intro σ e s
    exact ⟨rfl, rfl, rfl⟩
  · intro e
    constructor
    · rfl
    · rfl

/-- C7 witness: a valid create returns a response, and the update handler
catches the very input whose exception escapes create. -/
theorem c7_witness :
    isOk (create_lead "T" emailOkAll tableDB bodyValid ([] : List Data)).1 = true ∧
    isOk (update_lead 1 [("phone", Value.num 9876543210)] emailOkAll tableDB rows1).1 = true :=
  ⟨c7_theorem.2.2.2.2.1 (List Data) tableDB "T" bodyValid emailOkAll [] [] [] (by decide),
   c7_theorem.2.2.2.1 (List Data) tableDB 1 [("phone", Value.num 9876543210)] emailOkAll rows1⟩

/-- C9, counterexample to the claim as stated: an update body carrying
only a truthy non-string phone omits name, email and party, yet the
response is a 500 (the validator's `TypeError` is caught by the update
handler's `try`), not the claimed 400 with required-field errors. -/
theorem c9_counterexample :
    update_lead 1 [("phone", .num 9876543210)] emailOkAll tableDB rows1
      = (.ok (500, .msgB ("Error updating lead: " ++ reTypeErr)), rows1) := by decide

/-- C9 (amended): an update body that omits (or supplies falsy) any of
the four required fields is rejected with 400 carrying the corresponding
"<field> is required" message even when the target id exists — provided
the body's phone and email values, when present and truthy, are strings
(otherwise the validator raises and the handler answers 500, see the
counterexample).  The full validator runs on the patch body, so a partial
update must still supply all four fields. -/
theorem c9_theorem {σ : Type} (db : DB σ) (emailOk : String → Bool) (lead_id : Int)
    (d row : Data) (rest : List Data) (s s1 : σ) (f : String)
    (hd : d ≠ [])
    (hsel : db.selectEq "id" (.num lead_id) none s = (.ok (row :: rest), s1))
    (hke : hasKey row "email" = true) (hkp : hasKey row "phone" = true)
    (hsp : strFieldOk d "phone" = true) (hse : strFieldOk d "email" = true)
    (hf : f = "name" ∨ f = "phone" ∨ f = "email" ∨ f = "party")
    (hmiss : requiredMissing d f = true) :
    ∃ errs s2, update_lead lead_id d emailOk db s = (.ok (400, .errsB errs), s2) ∧
      (f ++ " is required") ∈ errs := by
  have hde : d.isEmpty = false := by
    cases d with
    | nil => exact absurd rfl hd
    | cons a l => rfl
  have hfl := flag_eq d row hke hkp
  obtain ⟨pe, sp, hps⟩ :=
    phoneStep_isOk db d (fieldDiffers d row "email" || fieldDiffers d row "phone") s1 hsp
  obtain ⟨ee, se, hes⟩ :=
    emailStep_isOk emailOk db d (fieldDiffers d row "email" || fieldDiffers d row "phone") sp hse
  have hval : validate_lead_data emailOk db d
      (fieldDiffers d row "email" || fieldDiffers d row "phone") s1
      = (.ok (requiredErrors d ++ pe ++ ee), se) := by
    rw [validate_split, hps]
    simp only []
    rw [hes]
  have hmem : (f ++ " is required") ∈ requiredErrors d ++ pe ++ ee :=
    List.mem_append_left _ (List.mem_append_left _ ((mem_requiredErrors d f hf).2 hmiss))
  have hne : (requiredErrors d ++ pe ++ ee).isEmpty = false := by
    cases hE : (requiredErrors d ++ pe ++ ee).isEmpty
    · rfl
    · rw [List.isEmpty_iff] at hE
      rw [hE] at hmem
      cases hmem
  refine ⟨requiredErrors d ++ pe ++ ee, se, ?_, hmem⟩
  unfold update_lead
  rw [hde]
  simp only [Bool.false_eq_true, if_false]
  rw [hsel]
  simp only []
  rw [hfl]
  simp only []
  rw [hval]
  simp only [hne, Bool.not_false, if_true]
  simp [pyTry]

/-- C9 witness: a status-only patch against existing lead 1 is refused
with all four required-field messages. -/
theorem c9_witness :
    update_lead 1 [("status", Value.str "S")] emailOkAll tableDB rows1
      = (.ok (400, .errsB ["name is required", "phone is required", "email is required",
          "party is required"]), rows1) ∧
    ("name" ++ " is required") ∈ ["name is required", "phone is required",
      "email is required", "party is required"] := by
  obtain ⟨errs, s2, hupd, hmem⟩ := c9_theorem tableDB emailOkAll 1 [("status", Value.str "S")]
    row1 [] rows1 rows1 "name" (by decide) (by decide) (by decide) (by decide) (by decide)
    (by decide) (by tauto) (by decide)
  have h2 : update_lead 1 [("status", Value.str "S")] emailOkAll tableDB rows1
      = (.ok (400, .errsB ["name is required", "phone is required", "email is required",
          "party is required"]), rows1) := by decide
  refine ⟨h2, ?_⟩
  rw [hupd] at h2
  simp only [Prod.mk.injEq, Except.ok.injEq, RespBody.errsB.injEq, true_and] at h2
  rw [← h2.1]
  exact hmem

/-- C10: validation-failure atomicity.  Over any store whose `select` is
read-only, every create or update request answered with a 400 response
(empty body or validator errors) leaves the store state unchanged: the
validator performs only selects, and the handlers reach `insert`/`update`
only after validation returned an empty error list. -/
theorem c10_theorem {σ : Type} (db : DB σ) (hro : readOnlySel db) :
    (∀ (now : String) (emailOk : String → Bool) (d : Data) (s : σ) (b : RespBody) (s' : σ),
       create_lead now emailOk db d s = (.ok (400, b), s') → s' = s)
  ∧ (∀ (lead_id : Int) (d : Data) (emailOk : String → Bool) (s : σ) (b : RespBody) (s' : σ),
       update_lead lead_id d emailOk db s = (.ok (400, b), s') → s' = s) := by
  constructor
  · intro now emailOk d s b s' h
    unfold create_lead at h
    by_cases hd : d.isEmpty = true
    · rw [if_pos hd] at h
      simp at h
      exact h.2.symm
    · rw [if_neg hd] at h
      rcases hv : validate_lead_data emailOk db d true s with ⟨vr, s1⟩
      have hs1 : s1 = s := by
        have := validate_state emailOk db d true s hro
        rw [hv] at this
        exact this
      rw [hv] at h
      cases vr with
      | error e => simp at h
      | ok errs =>
        by_cases he : errs.isEmpty = true
        · simp only [he, Bool.not_true, Bool.false_eq_true, if_false] at h
          rcases hi : db.insert (fillLead now d) s1 with ⟨ir, s2⟩
          rw [hi] at h
          cases ir with
          | error e => simp [pyTry] at h
          | ok rows =>
            cases rows with
            | nil => simp [pyTry] at h
            | cons r0 rs => simp [pyTry] at h
        · simp only [he, Bool.not_false, if_true] at h
          simp only [Prod.mk.injEq, Except.ok.injEq] at h
          rw [← h.2]
          exact hs1
  · intro lead_id d emailOk s b s' h
    unfold update_lead at h
    by_cases hd : d.isEmpty = true
    · rw [if_pos hd] at h
      simp at h
      exact h.2.symm
    · rw [if_neg hd] at h
      rcases hsel : db.selectEq "id" (.num lead_id) none s with ⟨sr, s1⟩
      have hs1 : s1 = s := by
        have := hro "id" (.num lead_id) none s
        rw [hsel] at this
        exact this
      rw [hsel] at h
      cases sr with
      | error e => simp [pyTry] at h
      | ok rows =>
        cases rows with
        | nil =>
          simp [pyTry] at h
        | cons row rest =>
          simp only [] at h
          rcases hfl : check_existing_flag d row with e | ce
          · rw [hfl] at h
            simp [pyTry] at h
          · rw [hfl] at h
            simp only [] at h
            rcases hv : validate_lead_data emailOk db d ce s1 with ⟨vr, s2⟩
            have hs2 : s2 = s1 := by
              have := validate_state emailOk db d ce s1 hro
              rw [hv] at this
              exact this
            rw [hv] at h
            cases vr with
            | error e => simp [pyTry] at h
            | ok errs =>
              by_cases he : errs.isEmpty = true
              · simp only [he, Bool.not_true, Bool.false_eq_true, if_false] at h
                rcases hu : db.updateEq d lead_id s2 with ⟨ur, s3⟩
                rw [hu] at h
                cases ur with
                | error e => simp [pyTry] at h
                | ok urows =>
                  cases urows with
                  | nil => simp [pyTry] at h
                  | cons r0 rs => simp [pyTry] at h
              · simp only [he, Bool.not_false, if_true] at h
                simp only [pyTry, Prod.mk.injEq, Except.ok.injEq] at h
                rw [← h.2, hs2]
                exact hs1

/-- C10 witness: a status-only patch is answered 400 and the concrete
row store is untouched. -/
theorem c10_witness :
    update_lead 1 [("status", Value.str "X")] emailOkAll tableDB rows1
      = (.ok (400, .errsB ["name is required", "phone is required", "email is required",
          "party is required"]), rows1) ∧ rows1 = rows1 := by
  have h : update_lead 1 [("status", Value.str "X")] emailOkAll tableDB rows1
      = (.ok (400, .errsB ["name is required", "phone is required", "email is required",
          "party is required"]), rows1) := by decide
  exact ⟨h, (c10_theorem tableDB (fun f v lim s0 => rfl)).2 1 [("status", Value.str "X")]
    emailOkAll rows1 (.errsB ["name is required", "phone is required", "email is required",
      "party is required"]) rows1 h⟩
